import Mathlib

/-!
Verification of the Messenger-Scrapper script (src/main.py) against its
natural-language specification.

The development shallowly embeds the three pieces of logic the claims are
about:

* the scroll loop of scroll_until_date (lines 190-248), modelled over an
  abstract sequence of (pre-height, post-height, post-offset) samples read
  from the live DOM on each iteration;
* the scrollable-container selection of get_message_container (lines 48-71);
* the image harvester download_loaded_images (lines 91-160) together with
  download_image (lines 73-85), modelled over an abstract page (a list of
  image elements), an abstract digest function standing for hashlib.md5,
  and a deterministic per-URL fetch outcome standing for requests.get plus
  the image-file write.

Python string primitives used by the script (`in`, str.lower, int(...)) are
modelled by executable character-list functions below.
-/

/-- Prefix test on character lists: `a.isPre b` holds when `a` is an initial
segment of `b`.  Used to model Python substring search. -/
def hasPre : List Char → List Char → Bool
  | [], _ => true
  | _ :: _, [] => false
  | a :: as, b :: bs => a == b && hasPre as bs

/-- Substring test on character lists: does `needle` occur contiguously in
the second list?  Models Python `needle in hay`. -/
def hasSub (needle : List Char) : List Char → Bool
  | [] => needle.isEmpty
  | b :: bs => hasPre needle (b :: bs) || hasSub needle bs

/-- Python `needle in hay` on strings. -/
def strContains (hay needle : String) : Bool :=
  hasSub needle.data hay.data

/-- Drop leading whitespace characters (models the left half of str.strip,
which Python int() applies to its argument). -/
def dropWhileWs : List Char → List Char
  | [] => []
  | c :: cs => if c.isWhitespace then dropWhileWs cs else c :: cs

/-- Strip whitespace from both ends of a character list. -/
def pyStrip (cs : List Char) : List Char :=
  ((dropWhileWs ((dropWhileWs cs).reverse)).reverse)

/-- Value of a list of decimal digit characters. -/
def digitsToInt (cs : List Char) : Int :=
  cs.foldl (fun n c => n * 10 + ((c.toNat : Int) - 48)) 0

/-- Python int(s) on the strings the script meets as width/height
attributes: strip whitespace, optional single sign, then decimal digits;
anything else raises ValueError, modelled as none.  (Digit-group
underscores and non-ASCII digits, which Python also accepts, do not occur
in DOM attributes and are not modelled.) -/
def parsePyInt (s : String) : Option Int :=
  match pyStrip s.data with
  | [] => none
  | c :: cs =>
    let digits := if c = '-' ∨ c = '+' then cs else c :: cs
    let sign : Int := if c = '-' then -1 else 1
    if digits = [] then none
    else if digits.all Char.isDigit then some (sign * digitsToInt digits)
    else none

/-- Python str.lower on the ASCII addresses the script handles. -/
def lowerStr (s : String) : String :=
  String.mk (s.data.map Char.toLower)

/-! ## Scroll controller (scroll_until_date, src/main.py lines 190-248) -/

/-- One iteration's DOM measurements: scrollHeight before the scroll-and-wait
(`preHeight`, line 201), scrollHeight after the wait (`postHeight`,
line 216) and scrollTop after the wait (`postTop`, line 215). -/
structure Sample where
  preHeight : Int
  postHeight : Int
  postTop : Int
deriving DecidableEq

/-- The stall-counter update performed by one loop iteration
(src/main.py lines 221-238): height growth resets `no_change_count` to 0;
unchanged height while scrollTop is 0 increments it; any other combination
resets it to 0. -/
def stallUpdate (c : Nat) (s : Sample) : Nat :=
  if s.preHeight < s.postHeight then 0
  else if s.postTop = 0 ∧ s.postHeight = s.preHeight then c + 1
  else 0

/-- The `for i in range(max_scrolls)` loop of scroll_until_date, for the
iterations in which the container is successfully re-acquired and no
exception fires: `c` is `no_change_count`, `i` the iteration index used to
read the DOM samples, `fuel` the remaining iteration budget.  Returns the
Python function's return value: True on `no_change_count >= 3`
(line 234-236), False when the budget runs out (line 248). -/
def scrollLoop (samples : Nat → Sample) : Nat → Nat → Nat → Bool
  | _, _, 0 => false
  | c, i, fuel + 1 =>
    let s := samples i
    if s.preHeight < s.postHeight then
      scrollLoop samples 0 (i + 1) fuel
    else if s.postTop = 0 ∧ s.postHeight = s.preHeight then
      if 3 ≤ c + 1 then true else scrollLoop samples (c + 1) (i + 1) fuel
    else
      scrollLoop samples 0 (i + 1) fuel

/-- scroll_until_date's loop started with `no_change_count = 0` at
iteration 0, with budget `max_scrolls` (src/main.py lines 185-248). -/
def scroll_until_date (samples : Nat → Sample) (max_scrolls : Nat) : Bool :=
  scrollLoop samples 0 0 max_scrolls

/-- Stall-counter value after `k` iterations when started from counter `c`
at iteration index `i`. -/
def stallFrom (samples : Nat → Sample) (c i : Nat) : Nat → Nat
  | 0 => c
  | k + 1 => stallUpdate (stallFrom samples c i k) (samples (i + k))

/-- Stall-counter value after the first `k` iterations of the loop. -/
def stallCount (samples : Nat → Sample) (k : Nat) : Nat :=
  stallFrom samples 0 0 k

/-- C1: within a scroll iteration, the stall counter increments (to c+1)
exactly when the post-wait scrollHeight equals the pre-wait scrollHeight
and the post-wait scrollTop is at the top boundary 0; every other sample
combination resets the counter to 0. -/
theorem c1_stall_update_rule (c : Nat) (s : Sample) :
    (s.postHeight = s.preHeight ∧ s.postTop = 0 → stallUpdate c s = c + 1)
    ∧ (¬(s.postHeight = s.preHeight ∧ s.postTop = 0) → stallUpdate c s = 0) := by
  constructor
  · rintro ⟨hh, ht⟩
    unfold stallUpdate
    rw [if_neg (by rw [hh]; exact lt_irrefl _), if_pos ⟨ht, hh⟩]
  · intro hne
    unfold stallUpdate
    by_cases hlt : s.preHeight < s.postHeight
    · rw [if_pos hlt]
    · rw [if_neg hlt, if_neg (fun h => hne ⟨h.2, h.1⟩)]

/-- Witness for C1: a concrete stall sample (unchanged height 1000, offset
0) increments the counter from 0 to 1. -/
theorem c1_stall_update_rule_witness :
    stallUpdate 0 ⟨1000, 1000, 0⟩ = 0 + 1 :=
  (c1_stall_update_rule 0 ⟨1000, 1000, 0⟩).1 ⟨rfl, rfl⟩

lemma stallFrom_shift (samples : Nat → Sample) (c i : Nat) :
    ∀ k, stallFrom samples c i (k + 1)
      = stallFrom samples (stallUpdate c (samples i)) (i + 1) k := by
  intro k
  induction k with
  | zero => rfl
  | succ k ih =>
    show stallUpdate (stallFrom samples c i (k + 1)) (samples (i + (k + 1)))
      = stallUpdate (stallFrom samples (stallUpdate c (samples i)) (i + 1) k)
          (samples ((i + 1) + k))
    have harg : i + (k + 1) = i + 1 + k := by omega
    rw [ih, harg]

lemma stall_exists_step (samples : Nat → Sample) (c i fuel : Nat) :
    (∃ j, j < fuel + 1 ∧ 3 ≤ stallFrom samples c i (j + 1))
    ↔ (3 ≤ stallUpdate c (samples i)
        ∨ ∃ j, j < fuel ∧ 3 ≤ stallFrom samples (stallUpdate c (samples i)) (i + 1) (j + 1)) := by
  constructor
  · rintro ⟨j, hj, h3⟩
    cases j with
    | zero => exact Or.inl h3
    | succ k =>
      right
      refine ⟨k, Nat.lt_of_succ_lt_succ hj, ?_⟩
      rw [← stallFrom_shift]
      exact h3
  · rintro (h3 | ⟨k, hk, h3⟩)
    · exact ⟨0, Nat.succ_pos _, h3⟩
    · refine ⟨k + 1, Nat.succ_lt_succ hk, ?_⟩
      rw [stallFrom_shift]
      exact h3

lemma scrollLoop_eq_true_iff (samples : Nat → Sample) :
    ∀ fuel c i, scrollLoop samples c i fuel = true
      ↔ ∃ j, j < fuel ∧ 3 ≤ stallFrom samples c i (j + 1) := by
  intro fuel
  induction fuel with
  | zero =>
    intro c i
    simp [scrollLoop]
  | succ fuel ih =>
    intro c i
    rw [stall_exists_step]
    show (if (samples i).preHeight < (samples i).postHeight then
        scrollLoop samples 0 (i + 1) fuel
      else if (samples i).postTop = 0 ∧ (samples i).postHeight = (samples i).preHeight then
        if 3 ≤ c + 1 then true else scrollLoop samples (c + 1) (i + 1) fuel
      else scrollLoop samples 0 (i + 1) fuel) = true ↔ _
    by_cases h1 : (samples i).preHeight < (samples i).postHeight
    · rw [if_pos h1, ih]
      have hu : stallUpdate c (samples i) = 0 := by
        unfold stallUpdate; rw [if_pos h1]
      rw [hu]
      simp
    · rw [if_neg h1]
      by_cases h2 : (samples i).postTop = 0 ∧ (samples i).postHeight = (samples i).preHeight
      · rw [if_pos h2]
        have hu : stallUpdate c (samples i) = c + 1 := by
          unfold stallUpdate; rw [if_neg h1, if_pos h2]
        rw [hu]
        by_cases h3 : 3 ≤ c + 1
        · simp [h3]
        · rw [if_neg h3, ih]
          simp [h3]
      · rw [if_neg h2, ih]
        have hu : stallUpdate c (samples i) = 0 := by
          unfold stallUpdate; rw [if_neg h1, if_neg h2]
        rw [hu]
        simp

/-- C2: for every sample sequence and every iteration budget, the loop
returns True exactly when the stall counter reaches 3 at some iteration
within the budget, and hence returns False exactly when the budget is
exhausted first. -/
theorem c2_success_iff_stall_threshold (samples : Nat → Sample) (max_scrolls : Nat) :
    scroll_until_date samples max_scrolls = true
    ↔ ∃ i, i < max_scrolls ∧ 3 ≤ stallCount samples (i + 1) := by
  unfold scroll_until_date stallCount
  exact scrollLoop_eq_true_iff samples max_scrolls 0 0

/-- Witness for C2: with every sample stalled (height 1000 unchanged,
offset 0) and budget 4, the loop succeeds and the counter indeed reaches 3
within the budget. -/
theorem c2_success_iff_stall_threshold_witness :
    scroll_until_date (fun _ => ⟨1000, 1000, 0⟩) 4 = true
    ↔ ∃ i, i < 4 ∧ 3 ≤ stallCount (fun _ => ⟨1000, 1000, 0⟩) (i + 1) :=
  c2_success_iff_stall_threshold (fun _ => ⟨1000, 1000, 0⟩) 4

/-! ## Scrollable-container selection (get_message_container, lines 48-71) -/

/-- A DOM node matched by the container XPath fingerprint: its two probed
heights, plus whether the execute_script probes succeed (the try/except of
lines 58-65 skips a node whose probe raises). -/
structure Container where
  scrollHeight : Int
  clientHeight : Int
  probeOk : Bool
deriving DecidableEq

/-- The scan of lines 57-65: walk the matched nodes, return the first whose
probes succeed and whose scrollHeight exceeds its clientHeight; a node
whose probe raises is skipped. -/
def findScrollable : List Container → Option Container
  | [] => none
  | c :: rest =>
    if c.probeOk = true then
      if c.clientHeight < c.scrollHeight then some c else findScrollable rest
    else findScrollable rest

/-- get_message_container (lines 48-71): first overflowing node, else the
first match (lines 68-69), else None (line 71). -/
def get_message_container (containers : List Container) : Option Container :=
  match findScrollable containers with
  | some c => some c
  | none => containers.head?

lemma findScrollable_eq_find (l : List Container)
    (hp : ∀ c ∈ l, c.probeOk = true) :
    findScrollable l = l.find? (fun c => decide (c.clientHeight < c.scrollHeight)) := by
  induction l with
  | nil => rfl
  | cons c rest ih =>
    have hc : c.probeOk = true := hp c (List.mem_cons_self c rest)
    have hrest : ∀ x ∈ rest, x.probeOk = true := fun x hx => hp x (List.mem_cons_of_mem c hx)
    unfold findScrollable
    rw [if_pos hc]
    by_cases hov : c.clientHeight < c.scrollHeight
    · rw [if_pos hov, List.find?_cons_of_pos _ (by simpa using hov)]
    · rw [if_neg hov, List.find?_cons_of_neg _ (by simpa using hov), ih hrest]

/-- C8: when every matched node's probes succeed, get_message_container
returns the first node whose scrollHeight exceeds its clientHeight; if no
node overflows it returns the first match; on the empty list it returns
none. -/
theorem c8_container_selection (l : List Container)
    (hp : ∀ c ∈ l, c.probeOk = true) :
    get_message_container l
      = (match l.find? (fun c => decide (c.clientHeight < c.scrollHeight)) with
         | some c => some c
         | none => l.head?)
    ∧ get_message_container ([] : List Container) = none := by
  refine ⟨?_, rfl⟩
  unfold get_message_container
  rw [findScrollable_eq_find l hp]

/-- Witness for C8: on a concrete two-node list where only the second node
overflows, the selection returns the second node. -/
theorem c8_container_selection_witness :
    get_message_container [⟨40, 40, true⟩, ⟨100, 50, true⟩] = some ⟨100, 50, true⟩ :=
  Eq.trans
    ((c8_container_selection [⟨40, 40, true⟩, ⟨100, 50, true⟩] (by decide)).1)
    (by decide)

/-! ## Image harvester (download_loaded_images, src/main.py lines 91-160) -/

/-- A rendered img element as the harvester sees it: the values Selenium's
get_attribute returns for src, width and height (None is modelled as
none, and the empty string stays the falsy empty string). -/
structure Image where
  src : Option String
  width : Option String
  height : Option String
deriving DecidableEq

/-- The externally observable outcome of trying to fetch one URL:
`response = none` models a transport exception in requests.get,
`response = some code` a reply with that status code; `writeOk` says
whether the image-file write would succeed.  Outcomes are a function of
the URL, making the environment deterministic across harvest passes. -/
structure FetchOutcome where
  response : Option Nat
  writeOk : Bool
deriving DecidableEq

/-- download_image (lines 73-85): True exactly when the GET returns
status 200 and the file write succeeds; a transport exception, a non-200
status, or a failed write all yield False. -/
def download_image (o : FetchOutcome) : Bool :=
  match o.response with
  | none => false
  | some code => if code = 200 then o.writeOk else false

/-- The harvester's mutable state during one pass: the in-memory
`downloaded_hashes` set (modelled as the list of its elements), the lines
of the on-disk downloaded_hashes.txt ledger, and `download_count`. -/
structure HState where
  hashes : List String
  fileLines : List String
  count : Nat
deriving DecidableEq

/-- The skip test of line 116 for a present src string: skip when the
string is empty (falsy) or contains 'blob:' or contains 'data:'. -/
def srcSkip (s : String) : Bool :=
  s = "" || strContains s "blob:" || strContains s "data:"

/-- The small-image skip of lines 120-126: Python evaluates
`width and height and (int(width) < 50 or int(height) < 50)` inside a
try/except whose except clause is pass, so a ValueError from either int()
leaves the candidate unrejected; int(width) is evaluated first and the
`or` short-circuits. -/
def dimSkip (width height : Option String) : Bool :=
  match width, height with
  | some w, some h =>
    if w = "" ∨ h = "" then false
    else
      match parsePyInt w with
      | none => false
      | some wi =>
        if wi < 50 then true
        else
          match parsePyInt h with
          | none => false
          | some hi => decide (hi < 50)
  | _, _ => false

/-- The XPath element query of line 98: keep the img elements whose src
attribute contains the substring 'http'. -/
def findImages (page : List Image) : List Image :=
  page.filter (fun img =>
    match img.src with
    | some s => strContains s "http"
    | none => false)

/-- The extension choice of lines 136-140: png if '.png' occurs in the
lowercased address, else gif if '.gif' occurs, else the default jpg. -/
def chooseExt (src : String) : String :=
  if strContains (lowerStr src) ".png" = true then "png"
  else if strContains (lowerStr src) ".gif" = true then "gif"
  else "jpg"

/-- One iteration of the harvest loop (lines 111-157) on one img element:
skip on missing/blob:/data: src (line 116), skip small declared dimensions
(lines 120-126), skip a hash already in the set (line 131), otherwise
attempt the download and, only on success, add the hash to the in-memory
set, increment the count, and append the hash to the ledger file
(lines 145-151). -/
def processImage (world : String → FetchOutcome) (digest : String → String)
    (st : HState) (img : Image) : HState :=
  match img.src with
  | none => st
  | some src =>
    if srcSkip src = true then st
    else if dimSkip img.width img.height = true then st
    else if digest src ∈ st.hashes then st
    else if download_image (world src) = true then
      { hashes := st.hashes ++ [digest src], fileLines := st.fileLines ++ [digest src],
        count := st.count + 1 }
    else st

/-- download_loaded_images (lines 91-160): load the ledger file into the
in-memory set (lines 104-107, an absent file giving the empty list), then
fold the harvest loop over the img elements matched by the XPath of
line 98; `digest` stands for the MD5 hex digest of get_image_hash
(lines 87-89). -/
def download_loaded_images (world : String → FetchOutcome)
    (digest : String → String) (page : List Image)
    (fileLines : List String) : HState :=
  (findImages page).foldl (processImage world digest)
    { hashes := fileLines, fileLines := fileLines, count := 0 }

/-- An img element reaches the hashing-and-download stage of the harvester
exactly when it is matched by the XPath of line 98 (src present and
containing 'http') and not skipped by line 116 (src nonempty, no 'blob:',
no 'data:'). -/
def passesSrcFilter (img : Image) : Bool :=
  match img.src with
  | none => false
  | some s => strContains s "http" && !srcSkip s

/-- Modelled from the spec: an address "beginning with a network scheme"
in the sense of section 4.2, i.e. starting with http:// or https://.
This definition follows the spec's words and exists only to be compared
with the source-derived filter. -/
def beginsWithNetworkScheme (s : String) : Bool :=
  hasPre "http://".data s.data || hasPre "https://".data s.data

lemma parsePyInt_empty : parsePyInt "" = none := rfl

/-- C5: for a candidate whose declared width and height attributes are
present and parse to integers wi and hi, the dimension filter rejects the
candidate exactly when wi < 50 or hi < 50; a candidate with no declared
dimensions is never rejected by the dimension rule. -/
theorem c5_dimension_filter (w h : String) (wi hi : Int)
    (hw : parsePyInt w = some wi) (hh : parsePyInt h = some hi) :
    (dimSkip (some w) (some h) = true ↔ (wi < 50 ∨ hi < 50))
    ∧ dimSkip none none = false := by
  refine ⟨?_, rfl⟩
  have hw0 : w ≠ "" := by
    intro e
    rw [e, parsePyInt_empty] at hw
    exact Option.noConfusion hw
  have hh0 : h ≠ "" := by
    intro e
    rw [e, parsePyInt_empty] at hh
    exact Option.noConfusion hh
  simp only [dimSkip]
  rw [if_neg (not_or.mpr ⟨hw0, hh0⟩), hw]
  by_cases h50 : wi < 50
  · simp [h50, hh]
  · simp [h50, hh]

/-- Witness for C5: the spec's concrete example width=20, height=20 is
rejected by the dimension rule, and absent dimensions are not. -/
theorem c5_dimension_filter_witness :
    (dimSkip (some "20") (some "20") = true ↔ ((20 : Int) < 50 ∨ (20 : Int) < 50))
    ∧ dimSkip none none = false :=
  c5_dimension_filter "20" "20" 20 20 (by decide) (by decide)

/-- C9: the chosen extension is png when the lowercased address contains
'.png', else gif when it contains '.gif', else the default jpg. -/
theorem c9_extension_choice (src : String) :
    (strContains (lowerStr src) ".png" = true → chooseExt src = "png")
    ∧ (strContains (lowerStr src) ".png" = false →
        strContains (lowerStr src) ".gif" = true → chooseExt src = "gif")
    ∧ (strContains (lowerStr src) ".png" = false →
        strContains (lowerStr src) ".gif" = false → chooseExt src = "jpg") := by
  refine ⟨fun h1 => ?_, fun h1 h2 => ?_, fun h1 h2 => ?_⟩
  · simp [chooseExt, h1]
  · simp [chooseExt, h1, h2]
  · simp [chooseExt, h1, h2]

/-- Witness for C9: a concrete mixed-case png address gets extension png. -/
theorem c9_extension_choice_witness : chooseExt "photo.PNG?id=1" = "png" :=
  (c9_extension_choice "photo.PNG?id=1").1 (by decide)

/-- C10 counterexample: a candidate whose width attribute parses below the
threshold but whose height attribute is present and unparseable IS
rejected by the dimension rule (int(width) < 50 short-circuits the `or`
before int(height) raises), contradicting the claim that a candidate with
an unparseable declared dimension is never rejected. -/
theorem c10_parse_error_counterexample :
    dimSkip (some "20") (some "notanumber") = true := by decide

/-- C10 amended: a swallowed int() parse error leaves the candidate
unrejected in exactly these cases: when the width attribute fails to
parse, and when the width parses to a value not below the threshold and
the height fails to parse.  (When the width parses below 50 the candidate
is rejected before the height is ever parsed.) -/
theorem c10_parse_error_amended (w h : String) :
    (parsePyInt w = none → dimSkip (some w) (some h) = false)
    ∧ (∀ wi, parsePyInt w = some wi → 50 ≤ wi → parsePyInt h = none →
        dimSkip (some w) (some h) = false) := by
  constructor
  · intro hwnone
    simp only [dimSkip]
    by_cases he : w = "" ∨ h = ""
    · rw [if_pos he]
    · rw [if_neg he, hwnone]
  · intro wi hw hge hhnone
    simp only [dimSkip]
    by_cases he : w = "" ∨ h = ""
    · rw [if_pos he]
    · rw [if_neg he, hw]
      have h50 : ¬wi < 50 := not_lt.mpr hge
      simp [h50, hhnone]

/-- Witness for C10 (amended): width 60 with an unparseable height is not
rejected. -/
theorem c10_parse_error_amended_witness :
    dimSkip (some "60") (some "notanumber") = false :=
  (c10_parse_error_amended "60" "notanumber").2 60 (by decide) (by decide) (by decide)

/-- C7 counterexample: the address file:///photos/http_cat.png is accepted
for further processing (it contains 'http' and neither 'blob:' nor
'data:') although it does not begin with a network scheme, refuting the
claim that only addresses beginning with a network scheme are accepted. -/
theorem c7_source_filter_counterexample :
    passesSrcFilter ⟨some "file:///photos/http_cat.png", none, none⟩ = true
    ∧ beginsWithNetworkScheme "file:///photos/http_cat.png" = false := by decide

/-- C7 amended: the harvester accepts a candidate's source address for
further processing exactly when the address is present, contains the
substring 'http' anywhere, and contains neither 'blob:' nor 'data:'; in
particular every blob:/data: reference and every candidate with a missing
source is rejected, but an accepted address need not begin with a network
scheme. -/
theorem c7_source_filter_amended (img : Image) :
    passesSrcFilter img = true
    ↔ ∃ s, img.src = some s ∧ strContains s "http" = true
        ∧ strContains s "blob:" = false ∧ strContains s "data:" = false := by
  cases himg : img.src with
  | none =>
    simp [passesSrcFilter, himg]
  | some s =>
    simp only [passesSrcFilter, himg]
    constructor
    · intro hb
      rw [Bool.and_eq_true, Bool.not_eq_true'] at hb
      obtain ⟨hhttp, hskip⟩ := hb
      unfold srcSkip at hskip
      rw [Bool.or_eq_false_iff, Bool.or_eq_false_iff] at hskip
      exact ⟨s, rfl, hhttp, hskip.1.2, hskip.2⟩
    · rintro ⟨s2, hs2, hhttp, hblob, hdata⟩
      obtain rfl : s = s2 := by injection hs2
      have hne : s ≠ "" := by
        intro e
        rw [e] at hhttp
        exact absurd hhttp (by decide)
      rw [Bool.and_eq_true, Bool.not_eq_true']
      refine ⟨hhttp, ?_⟩
      unfold srcSkip
      simp [hblob, hdata, hne]

lemma processImage_cases (world : String → FetchOutcome) (digest : String → String)
    (st : HState) (img : Image) :
    processImage world digest st img = st
    ∨ ∃ s, img.src = some s ∧ digest s ∉ st.hashes ∧ download_image (world s) = true
        ∧ processImage world digest st img
          = { hashes := st.hashes ++ [digest s],
              fileLines := st.fileLines ++ [digest s], count := st.count + 1 } := by
  rcases img with ⟨osrc, ow, oh⟩
  cases osrc with
  | none => exact Or.inl rfl
  | some s =>
    simp only [processImage]
    split_ifs with h1 h2 h3 h4
    · exact Or.inl rfl
    · exact Or.inl rfl
    · exact Or.inl rfl
    · exact Or.inr ⟨s, rfl, h3, h4, rfl⟩
    · exact Or.inl rfl

lemma processImage_hashes_mono (world : String → FetchOutcome) (digest : String → String)
    (st : HState) (img : Image) (h : String) (hm : h ∈ st.hashes) :
    h ∈ (processImage world digest st img).hashes := by
  rcases processImage_cases world digest st img with he | ⟨s, _, _, _, he⟩
  · rw [he]
    exact hm
  · rw [he]
    exact List.mem_append_left _ hm

lemma foldl_hashes_mono (world : String → FetchOutcome) (digest : String → String) :
    ∀ (l : List Image) (st : HState) (h : String), h ∈ st.hashes →
      h ∈ (l.foldl (processImage world digest) st).hashes := by
  intro l
  induction l with
  | nil => intro st h hm; exact hm
  | cons a l ih =>
    intro st h hm
    exact ih (processImage world digest st a) h
      (processImage_hashes_mono world digest st a h hm)

lemma processImage_lockstep (world : String → FetchOutcome) (digest : String → String)
    (st : HState) (img : Image) (hls : st.hashes = st.fileLines) :
    (processImage world digest st img).hashes = (processImage world digest st img).fileLines := by
  rcases processImage_cases world digest st img with he | ⟨s, _, _, _, he⟩
  · rw [he]
    exact hls
  · rw [he]
    show st.hashes ++ [digest s] = st.fileLines ++ [digest s]
    rw [hls]

lemma foldl_lockstep (world : String → FetchOutcome) (digest : String → String) :
    ∀ (l : List Image) (st : HState), st.hashes = st.fileLines →
      (l.foldl (processImage world digest) st).hashes
        = (l.foldl (processImage world digest) st).fileLines := by
  intro l
  induction l with
  | nil => intro st hls; exact hls
  | cons a l ih =>
    intro st hls
    exact ih (processImage world digest st a)
      (processImage_lockstep world digest st a hls)

lemma processImage_mem_digest (world : String → FetchOutcome) (digest : String → String)
    (st : HState) (s : String) (ow oh : Option String)
    (h1 : ¬srcSkip s = true) (h2 : ¬dimSkip ow oh = true)
    (hdl : download_image (world s) = true) :
    digest s ∈ (processImage world digest st ⟨some s, ow, oh⟩).hashes := by
  simp only [processImage]
  rw [if_neg h1, if_neg h2]
  by_cases hm : digest s ∈ st.hashes
  · rw [if_pos hm]
    exact hm
  · rw [if_neg hm, if_pos hdl]
    exact List.mem_append_right _ (List.mem_singleton.mpr rfl)

lemma foldl_fixed_points (world : String → FetchOutcome) (digest : String → String) :
    ∀ (l : List Image) (t : HState),
      (∀ img ∈ l, processImage world digest t img = t) →
      l.foldl (processImage world digest) t = t := by
  intro l
  induction l with
  | nil => intro t _; rfl
  | cons a l ih =>
    intro t hfix
    have ha : processImage world digest t a = t := hfix a (List.mem_cons_self a l)
    show List.foldl (processImage world digest) (processImage world digest t a) l = t
    rw [ha]
    exact ih t (fun img hm => hfix img (List.mem_cons_of_mem a hm))

lemma fixes_second_pass (world : String → FetchOutcome) (digest : String → String) :
    ∀ (l : List Image) (st t : HState),
      t.hashes = (l.foldl (processImage world digest) st).hashes →
      ∀ img ∈ l, processImage world digest t img = t := by
  intro l
  induction l with
  | nil => intro st t _ img hm; exact absurd hm (List.not_mem_nil img)
  | cons a l ih =>
    intro st t ht img hm
    rcases List.mem_cons.mp hm with rfl | hm2
    · rcases img with ⟨osrc, ow, oh⟩
      cases osrc with
      | none => rfl
      | some s =>
        simp only [processImage]
        split_ifs with h1 h2 h3 h4
        · rfl
        · rfl
        · rfl
        · exfalso
          apply h3
          rw [ht]
          exact foldl_hashes_mono world digest l
            (processImage world digest st ⟨some s, ow, oh⟩) (digest s)
            (processImage_mem_digest world digest st s ow oh h1 h2 h4)
        · rfl
    · exact ih (processImage world digest st a) t ht img hm2

lemma foldl_fileLines_provenance (world : String → FetchOutcome) (digest : String → String) :
    ∀ (l : List Image) (st : HState) (h : String),
      h ∈ (l.foldl (processImage world digest) st).fileLines →
      h ∈ st.fileLines
      ∨ ∃ img, img ∈ l ∧ ∃ s, img.src = some s ∧ digest s = h
          ∧ download_image (world s) = true := by
  intro l
  induction l with
  | nil => intro st h hm; exact Or.inl hm
  | cons a l ih =>
    intro st h hm
    rcases ih (processImage world digest st a) h hm with hin | ⟨img, himg, s, hsrc, hdig, hdl⟩
    · rcases processImage_cases world digest st a with he | ⟨s, hsrc, _, hdl, he⟩
      · rw [he] at hin
        exact Or.inl hin
      · rw [he] at hin
        rcases List.mem_append.mp hin with hin2 | hin2
        · exact Or.inl hin2
        · exact Or.inr ⟨a, List.mem_cons_self a l, s, hsrc,
            (List.mem_singleton.mp hin2).symm, hdl⟩
    · exact Or.inr ⟨img, List.mem_cons_of_mem a himg, s, hsrc, hdig, hdl⟩

/-- C3: running the harvester a second time over the same page, the same
deterministic fetch environment, and the ledger produced by the first
pass, downloads nothing: the second pass returns count 0 and appends no
line to the ledger file. -/
theorem c3_harvest_idempotent (world : String → FetchOutcome)
    (digest : String → String) (page : List Image) (fileLines : List String) :
    (download_loaded_images world digest page
        (download_loaded_images world digest page fileLines).fileLines).count = 0
    ∧ (download_loaded_images world digest page
        (download_loaded_images world digest page fileLines).fileLines).fileLines
      = (download_loaded_images world digest page fileLines).fileLines := by
  have hlock : (download_loaded_images world digest page fileLines).hashes
      = (download_loaded_images world digest page fileLines).fileLines :=
    foldl_lockstep world digest (findImages page) ⟨fileLines, fileLines, 0⟩ rfl
  have hfix : ∀ img ∈ findImages page,
      processImage world digest
        ⟨(download_loaded_images world digest page fileLines).fileLines,
         (download_loaded_images world digest page fileLines).fileLines, 0⟩ img
      = ⟨(download_loaded_images world digest page fileLines).fileLines,
         (download_loaded_images world digest page fileLines).fileLines, 0⟩ :=
    fixes_second_pass world digest (findImages page) ⟨fileLines, fileLines, 0⟩
      ⟨(download_loaded_images world digest page fileLines).fileLines,
       (download_loaded_images world digest page fileLines).fileLines, 0⟩
      hlock.symm
  have hc2 : download_loaded_images world digest page
      (download_loaded_images world digest page fileLines).fileLines
      = ⟨(download_loaded_images world digest page fileLines).fileLines,
         (download_loaded_images world digest page fileLines).fileLines, 0⟩ :=
    foldl_fixed_points world digest (findImages page)
      ⟨(download_loaded_images world digest page fileLines).fileLines,
       (download_loaded_images world digest page fileLines).fileLines, 0⟩ hfix
  rw [hc2]
  exact ⟨rfl, rfl⟩

/-- Witness for C3 (the theorem has no hypotheses; this instantiates it on
a concrete one-image page with a successful fetch environment). -/
theorem c3_harvest_idempotent_witness :
    (download_loaded_images (fun _ => ⟨some 200, true⟩) (fun s => s)
        [⟨some "http://a", none, none⟩]
        (download_loaded_images (fun _ => ⟨some 200, true⟩) (fun s => s)
          [⟨some "http://a", none, none⟩] []).fileLines).count = 0
    ∧ (download_loaded_images (fun _ => ⟨some 200, true⟩) (fun s => s)
        [⟨some "http://a", none, none⟩]
        (download_loaded_images (fun _ => ⟨some 200, true⟩) (fun s => s)
          [⟨some "http://a", none, none⟩] []).fileLines).fileLines
      = (download_loaded_images (fun _ => ⟨some 200, true⟩) (fun s => s)
          [⟨some "http://a", none, none⟩] []).fileLines :=
  c3_harvest_idempotent (fun _ => ⟨some 200, true⟩) (fun s => s)
    [⟨some "http://a", none, none⟩] []

/-- C4: the in-memory set and the ledger file stay in lockstep; every line
the pass adds to the ledger file is the digest of a candidate on the page
whose download succeeded; download_image succeeds exactly on status 200
plus a successful file write; and a candidate whose download fails leaves
the harvester state (set, file, count) completely unchanged. -/
theorem c4_ledger_only_on_success (world : String → FetchOutcome)
    (digest : String → String) (page : List Image) (fileLines : List String) :
    (download_loaded_images world digest page fileLines).hashes
      = (download_loaded_images world digest page fileLines).fileLines
    ∧ (∀ h, h ∈ (download_loaded_images world digest page fileLines).fileLines →
        h ∉ fileLines →
        ∃ img, img ∈ findImages page ∧ ∃ s, img.src = some s ∧ digest s = h
          ∧ download_image (world s) = true)
    ∧ (∀ o : FetchOutcome, download_image o = true
        ↔ (o.response = some 200 ∧ o.writeOk = true))
    ∧ (∀ (st : HState) (img : Image) (s : String), img.src = some s →
        download_image (world s) = false →
        processImage world digest st img = st) := by
  refine ⟨?_, ?_, ?_, ?_⟩
  · exact foldl_lockstep world digest (findImages page) ⟨fileLines, fileLines, 0⟩ rfl
  · intro h hmem hnot
    rcases foldl_fileLines_provenance world digest (findImages page)
      ⟨fileLines, fileLines, 0⟩ h hmem with hin | ⟨img, himg, s, hs, hd, hdl⟩
    · exact absurd hin hnot
    · exact ⟨img, himg, s, hs, hd, hdl⟩
  · intro o
    rcases o with ⟨resp, wok⟩
    cases resp with
    | none => simp [download_image]
    | some code =>
      by_cases hc : code = 200
      · subst hc
        simp [download_image]
      · simp [download_image, hc]
  · intro st img s hs hdl
    rcases processImage_cases world digest st img with he | ⟨s2, hs2, _, hdl2, _⟩
    · exact he
    · rw [hs] at hs2
      obtain rfl : s = s2 := by injection hs2
      rw [hdl] at hdl2
      exact Bool.noConfusion hdl2

/-- Witness for C4: on a concrete one-image page with an empty ledger, the
single recorded line is traced back to a successfully downloaded
candidate. -/
theorem c4_ledger_only_on_success_witness :
    ∃ img, img ∈ findImages [⟨some "http://b", none, none⟩]
      ∧ ∃ s, img.src = some s ∧ (fun x => x) s = "http://b"
        ∧ download_image ((fun _ => (⟨some 200, true⟩ : FetchOutcome)) s) = true :=
  (c4_ledger_only_on_success (fun _ => ⟨some 200, true⟩) (fun x => x)
      [⟨some "http://b", none, none⟩] []).2.1
    "http://b" (by decide) (by decide)

/-- C6: for three candidates with addresses A, B, C that all pass the
XPath selection, the source filter and the dimension filter, where A's
digest is already in the ledger, B's and C's digests are new and
distinct, and both downloads succeed, one harvest pass returns count 2
and appends exactly the two lines digest B, digest C to the ledger
file. -/
theorem c6_three_image_scenario (world : String → FetchOutcome)
    (digest : String → String) (A B C : String)
    (dwA dhA dwB dhB dwC dhC : Option String) (fileLines : List String)
    (hselA : strContains A "http" = true) (hselB : strContains B "http" = true)
    (hselC : strContains C "http" = true)
    (hsrcA : srcSkip A = false) (hsrcB : srcSkip B = false)
    (hsrcC : srcSkip C = false)
    (hdimA : dimSkip dwA dhA = false) (hdimB : dimSkip dwB dhB = false)
    (hdimC : dimSkip dwC dhC = false)
    (hAin : digest A ∈ fileLines) (hBnot : digest B ∉ fileLines)
    (hCnot : digest C ∉ fileLines) (hBC : digest B ≠ digest C)
    (hdlB : download_image (world B) = true)
    (hdlC : download_image (world C) = true) :
    (download_loaded_images world digest
        [⟨some A, dwA, dhA⟩, ⟨some B, dwB, dhB⟩, ⟨some C, dwC, dhC⟩]
        fileLines).count = 2
    ∧ (download_loaded_images world digest
        [⟨some A, dwA, dhA⟩, ⟨some B, dwB, dhB⟩, ⟨some C, dwC, dhC⟩]
        fileLines).fileLines = fileLines ++ [digest B, digest C] := by
  have hfilter : findImages
      [⟨some A, dwA, dhA⟩, ⟨some B, dwB, dhB⟩, ⟨some C, dwC, dhC⟩]
      = [⟨some A, dwA, dhA⟩, ⟨some B, dwB, dhB⟩, ⟨some C, dwC, dhC⟩] := by
    simp [findImages, hselA, hselB, hselC]
  have hstepA : processImage world digest ⟨fileLines, fileLines, 0⟩ ⟨some A, dwA, dhA⟩
      = ⟨fileLines, fileLines, 0⟩ := by
    simp only [processImage]
    rw [if_neg (by simp [hsrcA]), if_neg (by simp [hdimA]), if_pos hAin]
  have hstepB : processImage world digest ⟨fileLines, fileLines, 0⟩ ⟨some B, dwB, dhB⟩
      = ⟨fileLines ++ [digest B], fileLines ++ [digest B], 1⟩ := by
    simp only [processImage]
    rw [if_neg (by simp [hsrcB]), if_neg (by simp [hdimB]), if_neg hBnot, if_pos hdlB]
  have hmemC : digest C ∉ fileLines ++ [digest B] := by
    intro hmC
    rcases List.mem_append.mp hmC with h1 | h1
    · exact hCnot h1
    · exact hBC ((List.mem_singleton.mp h1).symm)
  have hstepC : processImage world digest
      ⟨fileLines ++ [digest B], fileLines ++ [digest B], 1⟩ ⟨some C, dwC, dhC⟩
      = ⟨fileLines ++ [digest B] ++ [digest C],
         fileLines ++ [digest B] ++ [digest C], 2⟩ := by
    simp only [processImage]
    rw [if_neg (by simp [hsrcC]), if_neg (by simp [hdimC]), if_neg hmemC, if_pos hdlC]
  have hfold : download_loaded_images world digest
      [⟨some A, dwA, dhA⟩, ⟨some B, dwB, dhB⟩, ⟨some C, dwC, dhC⟩] fileLines
      = ⟨fileLines ++ [digest B] ++ [digest C],
         fileLines ++ [digest B] ++ [digest C], 2⟩ := by
    unfold download_loaded_images
    rw [hfilter, List.foldl_cons, hstepA, List.foldl_cons, hstepB,
      List.foldl_cons, hstepC, List.foldl_nil]
  rw [hfold]
  exact ⟨rfl, by simp⟩

/-- Witness for C6: the scenario realized with the identity digest, three
concrete http addresses, and a fetch environment that always returns
status 200 with successful writes. -/
theorem c6_three_image_scenario_witness :
    (download_loaded_images (fun _ => ⟨some 200, true⟩) (fun s => s)
        [⟨some "http://a", none, none⟩, ⟨some "http://b", none, none⟩,
         ⟨some "http://c", none, none⟩] ["http://a"]).count = 2
    ∧ (download_loaded_images (fun _ => ⟨some 200, true⟩) (fun s => s)
        [⟨some "http://a", none, none⟩, ⟨some "http://b", none, none⟩,
         ⟨some "http://c", none, none⟩] ["http://a"]).fileLines
      = ["http://a"] ++ ["http://b", "http://c"] :=
  c6_three_image_scenario (fun _ => ⟨some 200, true⟩) (fun s => s)
    "http://a" "http://b" "http://c" none none none none none none ["http://a"]
    (by decide) (by decide) (by decide) (by decide) (by decide) (by decide)
    (by decide) (by decide) (by decide) (by decide) (by decide) (by decide)
    (by decide) (by decide) (by decide)
